import Mathlib

/-!
# Hermes silence detection: a formal model of src/main.cpp

Hermes scans the audio track of a video file, classifies each decoded audio
frame as silent or loud by an energy threshold, coalesces consecutive silent
frames into intervals, and writes one report line per interval.

This file shallowly embeds the core of src/main.cpp:

* C++ double values are modelled as exact rationals.  The source performs
  plain real arithmetic on doubles; no rounding-sensitive computation is part
  of the claims, except the IEEE division by zero in calculateEnergy, which is
  modelled explicitly with Option (none standing for NaN).
* calculateEnergy mirrors lines 43-52.
* The silence tracker is the state carried by the local variable
  last_silent_time of main (line 132, sentinel value -1 meaning that no
  interval is open).  observe mirrors one iteration of the classification
  logic at lines 155-164, flush mirrors the end-of-stream block at
  lines 173-180, and runFrom / run replay the whole decode loop over a list
  of (timestamp, energy) pairs.
* insertTimestamp mirrors lines 61-70; the local int variables of the C++
  function become start_minutes, start_seconds, end_minutes, end_seconds
  (a C cast from double to int truncates toward zero, modelled by ctrunc).
* frameTimestampSeconds models the per-frame timestamp pts * av_q2d(stream
  time_base) of lines 131/157/160, and endOfStreamSeconds the flush timestamp
  duration * ticks_per_frame / codec_time_base.den of lines 174-177.
-/

namespace Hermes

/-- THRESHOLD (src/main.cpp line 34): the fixed silence threshold 0.265. -/
def THRESHOLD : ℚ := 265 / 1000

/-- calculateEnergy (src/main.cpp lines 43-52): sum of squared normalized
samples divided by the sample count.  Division by zero is a rational total
operation here (giving 0); the IEEE-faithful variant is
calculateEnergyChecked below. -/
def calculateEnergy (samples : List ℤ) : ℚ :=
  (samples.foldl (fun (energy : ℚ) (s : ℤ) => energy + ((s : ℚ) / 32768) * ((s : ℚ) / 32768)) 0)
    / (samples.length : ℚ)

/-- IEEE double division with a possibly zero integer divisor: 0.0 / 0 is NaN
and x / 0 is an infinity, neither a real number, so the result is none when
the divisor is zero. -/
def divOrNaN (x : ℚ) (n : ℕ) : Option ℚ :=
  if n = 0 then none else some (x / (n : ℚ))

/-- calculateEnergy with the final division modelled at IEEE semantics:
for sample_count = 0 the C++ code computes 0.0 / 0, which is NaN (none). -/
def calculateEnergyChecked (samples : List ℤ) : Option ℚ :=
  divOrNaN
    (samples.foldl (fun (energy : ℚ) (s : ℤ) => energy + ((s : ℚ) / 32768) * ((s : ℚ) / 32768)) 0)
    samples.length

/-- The classification a frame with the given samples receives in the loop at
line 155: a NaN energy compares false against the threshold, so a zero-sample
frame is classified not silent. -/
def frameSilent (samples : List ℤ) : Bool :=
  match calculateEnergyChecked samples with
  | none => false
  | some e => decide (e ≤ THRESHOLD)

/-- The silent test of line 155: energy <= THRESHOLD. -/
def isSilent (energy : ℚ) : Bool :=
  decide (energy ≤ THRESHOLD)

/-- One iteration of the tracker logic (src/main.cpp lines 155-164) on the
state last_silent_time: returns the new state and the interval emitted, if
any.  The sentinel -1 encodes the absence of an open interval. -/
def observe (last_silent_time t energy : ℚ) : ℚ × Option (ℚ × ℚ) :=
  if energy ≤ THRESHOLD then
    (if last_silent_time = -1 then t else last_silent_time, none)
  else if last_silent_time = -1 then
    (last_silent_time, none)
  else
    (-1, some (last_silent_time, t))

/-- The end-of-stream block (src/main.cpp lines 173-180): emit the still-open
interval, if any, closed at the end-of-stream timestamp.  This is the final
operation of the program; no tracker state survives it. -/
def flush (last_silent_time end_time : ℚ) : Option (ℚ × ℚ) :=
  if last_silent_time = -1 then none else some (last_silent_time, end_time)

/-- Replay of the decode loop from an arbitrary tracker state: feed each
(timestamp, energy) pair through observe, then flush with the end-of-stream
timestamp, collecting the emitted intervals in order. -/
def runFrom : ℚ → List (ℚ × ℚ) → ℚ → List (ℚ × ℚ)
  | last, [], endT => (flush last endT).toList
  | last, (t, e) :: rest, endT =>
    ((observe last t e).2).toList ++ runFrom (observe last t e).1 rest endT

/-- A whole program run: the loop starts with last_silent_time = -1
(src/main.cpp line 132). -/
def run (frames : List (ℚ × ℚ)) (end_time : ℚ) : List (ℚ × ℚ) :=
  runFrom (-1) frames end_time

/-- Modelled from the spec: the transition table of the 2-state machine in
section 4.2 of the specification (states NoOpenInterval and
OpenInterval(start) become none and some start).  Used only to state the
refinement claim about observe. -/
def specObserve (st : Option ℚ) (t energy : ℚ) : Option ℚ × Option (ℚ × ℚ) :=
  match st with
  | none => if energy ≤ THRESHOLD then (some t, none) else (none, none)
  | some s => if energy ≤ THRESHOLD then (some s, none) else (none, some (s, t))

/-- Abstraction from the concrete sentinel encoding to the optional
open-interval start of the specification. -/
def absState (last_silent_time : ℚ) : Option ℚ :=
  if last_silent_time = -1 then none else some last_silent_time

/-- The open-interval starts encoded by a tracker state: the state is one
scalar, so it holds at most one open start. -/
def openStarts (last_silent_time : ℚ) : List ℚ :=
  if last_silent_time = -1 then [] else [last_silent_time]

/-- Emitted interval lists that are closed, ordered and non-overlapping above
a lower bound: lb ≤ s₁ ≤ e₁ ≤ s₂ ≤ e₂ ≤ …  -/
def WellFormed (lb : ℚ) : List (ℚ × ℚ) → Prop
  | [] => True
  | (s, e) :: rest => lb ≤ s ∧ s ≤ e ∧ WellFormed e rest

/-- Number of maximal runs of true in a flag list, given whether the element
before the list was true. -/
def countRunsAux : Bool → List Bool → ℕ
  | _, [] => 0
  | prev, b :: rest => (if b && !prev then 1 else 0) + countRunsAux b rest

/-- Number of maximal runs of consecutive true flags. -/
def countRuns (flags : List Bool) : ℕ :=
  countRunsAux false flags

/-- A C cast from double to int truncates toward zero. -/
def ctrunc (q : ℚ) : ℤ :=
  if q < 0 then ⌈q⌉ else ⌊q⌋

/-- Local int start_minutes of insertTimestamp (src/main.cpp line 62). -/
def start_minutes (start_time : ℚ) : ℤ :=
  ⌊start_time / 60⌋

/-- Local int start_seconds of insertTimestamp (src/main.cpp line 63): the
real remainder is truncated by the int declaration. -/
def start_seconds (start_time : ℚ) : ℤ :=
  ctrunc (start_time - (start_minutes start_time : ℚ) * 60)

/-- Local int end_minutes of insertTimestamp (src/main.cpp line 65). -/
def end_minutes (end_time : ℚ) : ℤ :=
  ⌊end_time / 60⌋

/-- Local int end_seconds of insertTimestamp (src/main.cpp line 66): the code
subtracts start_minutes * 60, not end_minutes * 60, from the end time. -/
def end_seconds (start_time end_time : ℚ) : ℤ :=
  ctrunc (end_time - (start_minutes start_time : ℚ) * 60)

/-- insertTimestamp (src/main.cpp lines 61-70): the report line written for
one silent interval. -/
def insertTimestamp (start_time end_time : ℚ) : String :=
  "Silent time: " ++ toString (start_minutes start_time) ++ "m"
    ++ toString (start_seconds start_time) ++ "s - "
    ++ toString (end_minutes end_time) ++ "m"
    ++ toString (end_seconds start_time end_time) ++ "s"

/-- The report file content as a list of lines: one line per emitted interval,
in emission order (insertTimestamp is called once per emission). -/
def hermesReport (intervals : List (ℚ × ℚ)) : List String :=
  intervals.map fun p => insertTimestamp p.1 p.2

/-- Per-frame timestamp conversion (src/main.cpp lines 131, 157, 160):
pts * av_q2d(stream time_base) = pts * num / den. -/
def frameTimestampSeconds (pts tbNum tbDen : ℤ) : ℚ :=
  (pts : ℚ) * ((tbNum : ℚ) / (tbDen : ℚ))

/-- End-of-stream flush timestamp (src/main.cpp lines 174-177):
stream duration in ticks * ticks_per_frame / codec time_base.den. -/
def endOfStreamSeconds (duration ticksPerFrame codecTbDen : ℤ) : ℚ :=
  (duration : ℚ) * (ticksPerFrame : ℚ) / (codecTbDen : ℚ)

/-! ## Helper lemmas -/

/-- Folding the energy accumulation from any initial value is the initial
value plus the sum of squared normalized samples. -/
lemma foldl_energy (l : List ℤ) : ∀ a : ℚ,
    l.foldl (fun (energy : ℚ) (s : ℤ) => energy + ((s : ℚ) / 32768) * ((s : ℚ) / 32768)) a
      = a + (l.map fun (s : ℤ) => ((s : ℚ) / 32768) * ((s : ℚ) / 32768)).sum := by
  induction l with
  | nil => intro a; simp
  | cons x xs ih =>
    intro a
    rw [List.foldl_cons, List.map_cons, List.sum_cons, ih]
    ring

lemma start_minutes_half_example : start_minutes ((181 : ℚ) / 2) = 1 := by
  unfold start_minutes
  norm_num [Int.floor_eq_iff]

lemma start_seconds_half_example : start_seconds ((181 : ℚ) / 2) = 30 := by
  unfold start_seconds ctrunc
  rw [start_minutes_half_example]
  rw [if_neg (by push_cast; norm_num)]
  push_cast
  norm_num [Int.floor_eq_iff]

lemma end_minutes_half_example : end_minutes ((251 : ℚ) / 2) = 2 := by
  unfold end_minutes
  norm_num [Int.floor_eq_iff]

lemma end_seconds_half_example :
    end_seconds ((181 : ℚ) / 2) ((251 : ℚ) / 2) = 65 := by
  unfold end_seconds ctrunc
  rw [start_minutes_half_example]
  rw [if_neg (by push_cast; norm_num)]
  push_cast
  norm_num [Int.floor_eq_iff]

/-! ## Claims -/

/-- C1: observe refines the 2-state machine of the specification.  Under the
abstraction absState (the sentinel -1 is NoOpenInterval, any other state is
OpenInterval with that start), each observe call performs exactly the
specified transition and emission.  Timestamps are non-negative reals per the
data model of the specification, which keeps the opened start clear of the
sentinel. -/
theorem observe_refines_spec_machine (last t e : ℚ) (ht : 0 ≤ t) :
    absState (observe last t e).1 = (specObserve (absState last) t e).1
      ∧ (observe last t e).2 = (specObserve (absState last) t e).2 := by
  have htne : t ≠ -1 := by
    intro h
    rw [h] at ht
    norm_num at ht
  by_cases he : e ≤ THRESHOLD <;> by_cases hl : last = -1 <;>
    simp [observe, specObserve, absState, he, hl, htne]

theorem observe_refines_spec_machine_witness :
    (0 : ℚ) ≤ 2
      ∧ absState (observe (-1) 2 0).1 = (specObserve (absState (-1)) 2 0).1
      ∧ (observe (-1) 2 0).2 = (specObserve (absState (-1)) 2 0).2 :=
  ⟨by decide, (observe_refines_spec_machine (-1) 2 0 (by decide)).1,
    (observe_refines_spec_machine (-1) 2 0 (by decide)).2⟩

/-- C2: for a frame with at least one sample, calculateEnergy is exactly the
mean of squared normalized amplitudes (1/N) * Σ (sᵢ / 32768)², and an
all-zero buffer has energy 0. -/
theorem calculateEnergy_mean_of_squares :
    (∀ samples : List ℤ, 1 ≤ samples.length →
        calculateEnergy samples
          = (1 / (samples.length : ℚ))
              * ((samples.map fun (s : ℤ) => ((s : ℚ) / 32768) * ((s : ℚ) / 32768)).sum))
      ∧ (∀ n : ℕ, 1 ≤ n → calculateEnergy (List.replicate n 0) = 0) := by
  constructor
  · intro samples _
    unfold calculateEnergy
    rw [foldl_energy, zero_add, one_div, inv_mul_eq_div]
  · intro n _
    unfold calculateEnergy
    rw [foldl_energy, zero_add]
    have hmap : ((List.replicate n (0 : ℤ)).map
          fun (s : ℤ) => ((s : ℚ) / 32768) * ((s : ℚ) / 32768))
        = List.replicate n (0 : ℚ) := by
      simp [List.map_replicate]
    rw [hmap, List.sum_replicate]
    simp

theorem calculateEnergy_mean_of_squares_witness :
    (1 ≤ ([(16384 : ℤ)] : List ℤ).length
        ∧ calculateEnergy [(16384 : ℤ)]
            = (1 / (([(16384 : ℤ)] : List ℤ).length : ℚ))
                * ((([(16384 : ℤ)] : List ℤ).map
                      fun (s : ℤ) => ((s : ℚ) / 32768) * ((s : ℚ) / 32768)).sum))
      ∧ (1 ≤ 3 ∧ calculateEnergy (List.replicate 3 0) = 0) :=
  ⟨⟨by decide, calculateEnergy_mean_of_squares.1 [(16384 : ℤ)] (by decide)⟩,
    ⟨by decide, calculateEnergy_mean_of_squares.2 3 (by decide)⟩⟩

/-- C3: the end-of-stream flush emits the interval (start,
end_of_stream_timestamp) exactly when an interval is open, and otherwise
emits nothing; flush is the final tracker operation of a run, after which no
interval is open.  In the trailing-silence scenario with frames at t = 0
(energy 0.9), t = 1 (energy 0.1), t = 2 (energy 0.05), the observe calls emit
nothing and the flush at any end-of-stream time T emits exactly (1, T), e.g.
(1, 3) for T = 3. -/
theorem flush_closes_open_interval :
    (∀ last endT : ℚ, last ≠ -1 → flush last endT = some (last, endT))
      ∧ (∀ endT : ℚ, flush (-1) endT = none)
      ∧ (∀ endT : ℚ,
          run [((0 : ℚ), 9/10), (1, 1/10), (2, 1/20)] endT = [(1, endT)]) := by
  refine ⟨fun last endT h => by simp [flush, h], fun endT => by simp [flush],
    fun endT => ?_⟩
  norm_num [run, runFrom, observe, flush, THRESHOLD]

theorem flush_closes_open_interval_witness :
    ((2 : ℚ) ≠ -1) ∧ flush 2 5 = some (2, 5) :=
  ⟨by decide, flush_closes_open_interval.1 2 5 (by decide)⟩

/-- C5: the silence classification is energy ≤ THRESHOLD with THRESHOLD fixed
at 0.265 = 265/1000, and the boundary is inclusive: energy exactly equal to
the threshold classifies as silent, so a boundary frame opens an interval
from the no-open state. -/
theorem silence_threshold_inclusive :
    THRESHOLD = 265 / 1000
      ∧ (∀ e : ℚ, isSilent e = true ↔ e ≤ 265 / 1000)
      ∧ isSilent (265 / 1000) = true
      ∧ (observe (-1) 5 (265 / 1000)).1 = 5 := by
  refine ⟨rfl, fun e => ?_, ?_, ?_⟩
  · simp [isSilent, THRESHOLD]
  · simp [isSilent, THRESHOLD]
  · norm_num [observe, THRESHOLD]

theorem silence_threshold_inclusive_witness :
    isSilent (265 / 1000) = true ∧ THRESHOLD = 265 / 1000 :=
  ⟨silence_threshold_inclusive.2.2.1, silence_threshold_inclusive.1⟩

/-- C6: the code does not handle a zero-sample frame: calculateEnergy divides
by the sample count with no guard, so a frame with 0 samples yields the IEEE
result 0.0 / 0 = NaN (modelled as none), which is neither a rejection nor an
explicit 0; the NaN reaches the classification at line 155, where it compares
not silent. -/
theorem calculateEnergy_zero_sample_count_undefined :
    calculateEnergyChecked [] = none
      ∧ calculateEnergyChecked [] ≠ some 0
      ∧ frameSilent [] = false := by
  refine ⟨rfl, ?_, rfl⟩
  simp [calculateEnergyChecked, divOrNaN]

/-- C7: the flush timestamp of lines 174-177 (duration * ticks_per_frame /
codec time_base.den) is not in the units of the per-frame timestamps
(pts * stream time_base) in general: for a stream with time base 1/1000
(1000 ticks = 1 s) decoded by a 48 kHz codec (codec time_base.den = 48000,
ticks_per_frame = 1), a total duration of 1000 ticks converts to 1 s for
frames but to 1/48 s for the flush. -/
theorem flush_timestamp_units_disagree :
    endOfStreamSeconds 1000 1 48000 ≠ frameTimestampSeconds 1000 1 1000 := by
  norm_num [endOfStreamSeconds, frameTimestampSeconds]

/-- C8 counterexample: the seconds value stored by insertTimestamp is an int,
so at start time 90.5 s the stored start seconds are 30, not the exact
remainder 30.5 claimed. -/
theorem start_seconds_truncated :
    (start_seconds ((181 : ℚ) / 2) : ℚ)
      ≠ (181 : ℚ) / 2 - (start_minutes ((181 : ℚ) / 2) : ℚ) * 60 := by
  rw [start_seconds_half_example, start_minutes_half_example]
  push_cast
  norm_num

/-- C8 (amended): for every interval written by insertTimestamp, start
minutes = ⌊start/60⌋, start seconds = the integer truncation of
start − start_minutes·60, end minutes = ⌊end/60⌋, and the end seconds are the
integer truncation of end − start_minutes·60, i.e. computed from the start
interval minutes, not the end minutes — which changes the value, e.g. at
start 90 s, end 125 s the written end seconds are 65, not 5. -/
theorem insertTimestamp_fields :
    (∀ s t : ℚ,
        start_minutes s = ⌊s / 60⌋
          ∧ start_seconds s = ctrunc (s - (⌊s / 60⌋ : ℚ) * 60)
          ∧ end_minutes t = ⌊t / 60⌋
          ∧ end_seconds s t = ctrunc (t - (⌊s / 60⌋ : ℚ) * 60))
      ∧ end_seconds 90 125 ≠ ctrunc ((125 : ℚ) - (⌊(125 : ℚ) / 60⌋ : ℚ) * 60) := by
  constructor
  · exact fun s t => ⟨rfl, rfl, rfl, rfl⟩
  · have h1 : end_seconds 90 125 = 65 := by
      unfold end_seconds ctrunc start_minutes
      norm_num [Int.floor_eq_iff]
    have h2 : ctrunc ((125 : ℚ) - (⌊(125 : ℚ) / 60⌋ : ℚ) * 60) = 5 := by
      have hf : ⌊(125 : ℚ) / 60⌋ = 2 := by norm_num [Int.floor_eq_iff]
      unfold ctrunc
      rw [hf]
      norm_num [Int.floor_eq_iff]
    rw [h1, h2]
    norm_num

/-- C9 counterexample: the seconds fields of the report line are truncated to
integers, contradicting the claim that the real-valued remainders are
rendered: for the interval (90.5, 125.5) the code writes
"Silent time: 1m30s - 2m65s", and the written end seconds 65 differ from the
real-valued remainder 65.5 of section 4.3. -/
theorem report_line_truncates_seconds :
    insertTimestamp ((181 : ℚ) / 2) ((251 : ℚ) / 2) = "Silent time: 1m30s - 2m65s"
      ∧ (end_seconds ((181 : ℚ) / 2) ((251 : ℚ) / 2) : ℚ)
          ≠ (251 : ℚ) / 2 - (start_minutes ((181 : ℚ) / 2) : ℚ) * 60 := by
  constructor
  · unfold insertTimestamp
    rw [start_minutes_half_example, start_seconds_half_example,
      end_minutes_half_example, end_seconds_half_example]
    rfl
  · rw [end_seconds_half_example, start_minutes_half_example]
    push_cast
    norm_num

/-- C9 (amended): the report renders, for each emitted interval in emission
order, exactly one line "Silent time: {start_min}m{start_sec}s -
{end_min}m{end_sec}s", where the minutes fields are ⌊t/60⌋ and the seconds
fields are the integer truncations of the section 4.3 remainders (the end
remainder computed with the start minutes). -/
theorem report_line_format :
    (∀ s t : ℚ,
        insertTimestamp s t
          = "Silent time: " ++ toString ⌊s / 60⌋ ++ "m"
              ++ toString (ctrunc (s - (⌊s / 60⌋ : ℚ) * 60)) ++ "s - "
              ++ toString ⌊t / 60⌋ ++ "m"
              ++ toString (ctrunc (t - (⌊s / 60⌋ : ℚ) * 60)) ++ "s")
      ∧ (∀ intervals : List (ℚ × ℚ),
            (hermesReport intervals).length = intervals.length)
      ∧ (∀ p : ℚ × ℚ, ∀ rest : List (ℚ × ℚ),
            hermesReport (p :: rest)
              = insertTimestamp p.1 p.2 :: hermesReport rest) := by
  refine ⟨fun s t => rfl, fun intervals => ?_, fun p rest => rfl⟩
  simp [hermesReport]

/-- From a state that is either the sentinel or an open start below every
remaining timestamp, the replay emits a closed, ordered, non-overlapping
interval list above the lower bound lb. -/
lemma runFrom_wf (frames : List (ℚ × ℚ)) :
    ∀ last lb endT : ℚ,
      frames.Pairwise (fun p q => p.1 < q.1) →
      (∀ p ∈ frames, lb ≤ p.1) →
      (∀ p ∈ frames, p.1 ≤ endT) →
      (last = -1 ∨ (lb ≤ last ∧ (∀ p ∈ frames, last < p.1) ∧ last ≤ endT)) →
      WellFormed lb (runFrom last frames endT) := by
  induction frames with
  | nil =>
    intro last lb endT _ _ _ hlast
    by_cases h : last = -1
    · simp [runFrom, flush, h, WellFormed]
    · obtain ⟨h1, _, h3⟩ := hlast.resolve_left h
      simp [runFrom, flush, h, WellFormed]
      exact ⟨h1, h3⟩
  | cons p rest ih =>
    obtain ⟨t, e⟩ := p
    intro last lb endT hpw hge hle hlast
    rw [List.pairwise_cons] at hpw
    obtain ⟨hhead, htail⟩ := hpw
    have hge2 : ∀ q ∈ rest, lb ≤ q.1 := fun q hq => hge q (List.mem_cons_of_mem _ hq)
    have hle2 : ∀ q ∈ rest, q.1 ≤ endT := fun q hq => hle q (List.mem_cons_of_mem _ hq)
    by_cases he : e ≤ THRESHOLD
    · by_cases hl : last = -1
      · simp [runFrom, observe, he, hl]
        exact ih t lb endT htail hge2 hle2
          (Or.inr ⟨hge (t, e) (List.mem_cons_self _ _), fun q hq => hhead q hq,
            hle (t, e) (List.mem_cons_self _ _)⟩)
      · obtain ⟨h1, h2, h3⟩ := hlast.resolve_left hl
        simp [runFrom, observe, he, hl]
        exact ih last lb endT htail hge2 hle2
          (Or.inr ⟨h1, fun q hq => h2 q (List.mem_cons_of_mem _ hq), h3⟩)
    · by_cases hl : last = -1
      · simp [runFrom, observe, he, hl]
        exact ih (-1) lb endT htail hge2 hle2 (Or.inl rfl)
      · obtain ⟨h1, h2, h3⟩ := hlast.resolve_left hl
        simp [runFrom, observe, he, hl, WellFormed]
        refine ⟨h1, le_of_lt (h2 (t, e) (List.mem_cons_self _ _)), ?_⟩
        exact ih (-1) t endT htail (fun q hq => le_of_lt (hhead q hq)) hle2 (Or.inl rfl)

/-- The number of intervals emitted by the replay (flush included) counts the
maximal runs of silent frames, provided no frame timestamp collides with the
sentinel -1. -/
lemma runFrom_length (frames : List (ℚ × ℚ)) :
    ∀ last endT : ℚ, (∀ p ∈ frames, p.1 ≠ -1) →
      (runFrom last frames endT).length
        = countRunsAux (!decide (last = -1)) (frames.map fun p => isSilent p.2)
          + (if last = -1 then 0 else 1) := by
  induction frames with
  | nil =>
    intro last endT _
    by_cases h : last = -1 <;> simp [runFrom, flush, h, countRunsAux]
  | cons p rest ih =>
    obtain ⟨t, e⟩ := p
    intro last endT hne
    have hte : t ≠ -1 := hne (t, e) (List.mem_cons_self _ _)
    have hne2 : ∀ q ∈ rest, q.1 ≠ -1 := fun q hq => hne q (List.mem_cons_of_mem _ hq)
    by_cases he : e ≤ THRESHOLD
    · by_cases hl : last = -1
      · simp [runFrom, observe, he, hl, countRunsAux, isSilent, ih t endT hne2, hte]
        omega
      · simp [runFrom, observe, he, hl, countRunsAux, isSilent, ih last endT hne2]
    · by_cases hl : last = -1
      · simp [runFrom, observe, he, hl, countRunsAux, isSilent, ih (-1) endT hne2]
      · simp [runFrom, observe, he, hl, countRunsAux, isSilent, ih (-1) endT hne2]

/-- C4: for any frame sequence with strictly increasing non-negative
timestamps, all of them at most the end-of-stream timestamp, the intervals
emitted by the observe calls and the final flush are closed (start ≤ end),
pairwise non-overlapping and in non-decreasing time order matching feed
order (WellFormed chains 0 ≤ s₁ ≤ e₁ ≤ s₂ ≤ …), the single-scalar state
holds at most one open interval at any time, and the number of emitted
intervals equals the number of maximal runs of consecutive silent frames. -/
theorem tracker_run_invariants (frames : List (ℚ × ℚ)) (endT : ℚ)
    (hmono : frames.Pairwise fun p q => p.1 < q.1)
    (hpos : ∀ p ∈ frames, 0 ≤ p.1)
    (hend : ∀ p ∈ frames, p.1 ≤ endT) :
    WellFormed 0 (run frames endT)
      ∧ (run frames endT).length = countRuns (frames.map fun p => isSilent p.2)
      ∧ (∀ last : ℚ, (openStarts last).length ≤ 1) := by
  refine ⟨runFrom_wf frames (-1) 0 endT hmono hpos hend (Or.inl rfl), ?_, ?_⟩
  · have hne : ∀ p ∈ frames, p.1 ≠ -1 := by
      intro p hp hc
      have h0 := hpos p hp
      rw [hc] at h0
      norm_num at h0
    have h := runFrom_length frames (-1) endT hne
    simpa [run, countRuns] using h
  · intro last
    by_cases h : last = -1 <;> simp [openStarts, h]

theorem tracker_run_invariants_witness :
    (([((0 : ℚ), (1 : ℚ)), (1, 0), (2, 1)].Pairwise fun p q => p.1 < q.1)
        ∧ (∀ p ∈ [((0 : ℚ), (1 : ℚ)), (1, 0), (2, 1)], 0 ≤ p.1)
        ∧ (∀ p ∈ [((0 : ℚ), (1 : ℚ)), (1, 0), (2, 1)], p.1 ≤ 3))
      ∧ (WellFormed 0 (run [((0 : ℚ), (1 : ℚ)), (1, 0), (2, 1)] 3)
          ∧ (run [((0 : ℚ), (1 : ℚ)), (1, 0), (2, 1)] 3).length
              = countRuns ([((0 : ℚ), (1 : ℚ)), (1, 0), (2, 1)].map fun p => isSilent p.2)
          ∧ (∀ last : ℚ, (openStarts last).length ≤ 1)) :=
  ⟨⟨by decide, by decide, by decide⟩,
    tracker_run_invariants [((0 : ℚ), (1 : ℚ)), (1, 0), (2, 1)] 3
      (by decide) (by decide) (by decide)⟩

/-- C10: the loop encodes NoOpenInterval as last_silent_time = -1, so a
silent frame at timestamp exactly -1 observed with no open interval stores
-1 and leaves the tracker indistinguishable from the no-open state: the
silent run it begins is dropped entirely if the next frame is loud, and is
reported from the next silent frame timestamp otherwise.  An empty run also
flushes nothing from the initial -1 state. -/
theorem sentinel_minus_one_collision :
    observe (-1) (-1) 0 = (-1, none)
      ∧ run [((-1 : ℚ), 0), (0, 1)] 1 = []
      ∧ run [((-1 : ℚ), 0), (0, 0), (1, 1)] 2 = [(0, 1)]
      ∧ run [] 5 = [] := by
  refine ⟨?_, ?_, ?_, ?_⟩ <;>
    norm_num [run, runFrom, observe, flush, THRESHOLD]

end Hermes
